import Mathlib

/-!
# Baby-monitor streaming session engine and classification pipeline

Shallow embedding of the core of the IA-babyCare backend:

* `audio_analysis/ml_model.py` — the `AudioAnalyzer` classification pipeline
  (`preprocess_audio` with its three decode tiers, fixed-length waveform
  normalization, `predict` with softmax / arg-max / probability map).
* `audio_analysis/consumers.py` — the `BabyMonitorConsumer` WebSocket
  session engine (per-connection `is_recording` / `chunk_count` state,
  command handling, group broadcast fan-out).

External libraries (librosa / tensorflow decode, STFT, the Keras model)
are modelled as opaque parameters of an `MLEnv`; wall-clock timestamps
carried by some wire events are omitted.  Rationals stand in for the
floating-point values of the source.
-/

namespace BabyMonitor

/-! ## Classification pipeline (`ml_model.py`) -/

/-- The fixed label set, `AudioAnalyzer.__init__`:
`['cry', 'hungry', 'laugh', 'noise', 'silence']`. -/
def class_names : List String := ["cry", "hungry", "laugh", "noise", "silence"]

/-- Target sample count: 1 second at 16 kHz (`desired_samples=16000`). -/
def targetSamples : Nat := 16000

/-- Fixed-length normalization of a decoded waveform, as in
`preprocess_audio_with_librosa` (ml_model.py lines 59-63) and the scipy
tier (lines 151-155): truncate when longer than 16000 samples, zero-pad
the tail when shorter, leave unchanged otherwise. -/
def normalizeLength (audio : List ℚ) : List ℚ :=
  if audio.length > targetSamples then audio.take targetSamples
  else if audio.length < targetSamples then
    audio ++ List.replicate (targetSamples - audio.length) 0
  else audio

/-- First-maximum scan underlying `tf.argmax`: walk the remaining list,
keeping the earliest index attaining the running maximum.  `i` is the
index of the head of `xs` in the full list; `best` is the best
`(index, value)` pair seen so far. -/
def argmaxGo : List ℚ → Nat → Nat × ℚ → Nat × ℚ
  | [], _, best => best
  | x :: xs, i, best => argmaxGo xs (i + 1) (if best.2 < x then (i, x) else best)

/-- `tf.argmax(probabilities)`: index of the first maximal entry
(0 on the empty list, which the source never hits). -/
def argmaxIdx : List ℚ → Nat
  | [] => 0
  | x :: xs => (argmaxGo xs 1 (0, x)).1

/-- Result of `AudioAnalyzer.predict`: either a successful classification
(`state`, `confidence`, `probabilities` dictionary as an association list
in class order) or a result tagged with an `error` string. -/
inductive PredictResult
  | ok (state : String) (confidence : ℚ) (probabilities : List (String × ℚ))
  | err (msg : String)
deriving DecidableEq

/-- `true` exactly on results carrying an `error` key. -/
def PredictResult.isErr : PredictResult → Bool
  | .ok _ _ _ => false
  | .err _ => true

/-- Opaque collaborators of the pipeline.  `decode1`/`decode2`/`decode3`
are the three decode tiers of `preprocess_audio` (librosa, TensorFlow
with PCM conversion, scipy.io.wavfile), each returning the decoded raw
waveform or `none` on a recoverable failure.  `stft` is
`get_spectrogram` (an opaque numeric transform here).  `infer` is the
Keras model call plus softmax input row extraction: `Except.error`
models the call raising; on success it yields the 5-wide raw score row
`prediction[0]`.  `e` is the exponential used by softmax (kept abstract
over ℚ; it is positive everywhere). -/
structure MLEnv where
  modelLoaded : Bool
  decode1 : List Nat → Option (List ℚ)
  decode2 : List Nat → Option (List ℚ)
  decode3 : List Nat → Option (List ℚ)
  stft : List ℚ → List ℚ
  infer : List ℚ → Except String (Fin 5 → ℚ)
  e : ℚ → ℚ

/-- `preprocess_audio` (ml_model.py lines 114-171): try the three decode
tiers in order, stopping at the first success; every successful tier
normalizes the waveform to 16000 samples and converts it to a
spectrogram; return `none` when all three tiers fail. -/
def preprocess_audio (env : MLEnv) (chunk : List Nat) : Option (List ℚ) :=
  match env.decode1 chunk with
  | some a => some (env.stft (normalizeLength a))
  | none =>
    match env.decode2 chunk with
    | some a => some (env.stft (normalizeLength a))
    | none =>
      match env.decode3 chunk with
      | some a => some (env.stft (normalizeLength a))
      | none => none

/-- `tf.nn.softmax` over the 5-wide score row, with the exponential kept
abstract: entry `i` is `e (z i) / Σ_j e (z j)`. -/
def softmax (e : ℚ → ℚ) (z : Fin 5 → ℚ) (i : Fin 5) : ℚ :=
  e (z i) / (e (z 0) + e (z 1) + e (z 2) + e (z 3) + e (z 4))

/-- The `probabilities` vector of `predict`: the five softmax entries of
the raw score row, in class order. -/
def probListOf (e : ℚ → ℚ) (z : Fin 5 → ℚ) : List ℚ :=
  [softmax e z 0, softmax e z 1, softmax e z 2, softmax e z 3, softmax e z 4]

/-- `AudioAnalyzer.predict` (ml_model.py lines 173-225): error result if
the model is not loaded; error result if preprocessing fails; otherwise
run inference (an exception becomes an error result), softmax the raw
scores, take the first arg-max index as predicted class and confidence,
and zip the class names with the probabilities. -/
def predict (env : MLEnv) (chunk : List Nat) : PredictResult :=
  if env.modelLoaded = false then .err "Model not loaded"
  else
    match preprocess_audio env chunk with
    | none => .err "Failed to preprocess audio"
    | some spect =>
      match env.infer spect with
      | .error msg => .err msg
      | .ok scores =>
        .ok (class_names.getD (argmaxIdx (probListOf env.e scores)) "unknown")
          ((probListOf env.e scores).getD (argmaxIdx (probListOf env.e scores)) 0)
          (class_names.zip (probListOf env.e scores))

/-! ## Session engine (`consumers.py`) -/

/-- Client role parsed from the connect query string: `'recorder'`,
`'dashboard'`, or `'unknown'` when neither is present. -/
inductive ClientType
  | recorder
  | dashboard
  | unknown
deriving DecidableEq

/-- Outbound wire events of the consumer.  Wall-clock `timestamp` fields
and human-oriented `message` strings with no behavioural content are
omitted. -/
inductive Event
  | connection_status (babyId : String) (clientType : ClientType)
  | client_status (connected : Bool) (clientType : ClientType) (babyId : String)
  | recording_status (started : Bool) (babyId : String) (totalChunks : Nat)
      (recorderClient : ClientType)
  | pong
  | current_status (isRecording : Bool) (chunkCount : Nat) (babyId : String)
      (clientType : ClientType)
  | prediction_update (babyId : String) (predictedClass : String)
      (confidence : ℚ) (probabilities : List (String × ℚ))
      (chunkNumber : Nat) (chunkSize : Nat)
  | processing_error (errMsg : String) (chunkNumber : Nat)
  | errorMessage (msg : String)
deriving DecidableEq

/-- Per-connection state of one `BabyMonitorConsumer` instance
(`__init__`, consumers.py lines 14-21). -/
structure Conn where
  channel_name : Nat
  baby_id : String
  client_type : ClientType
  is_recording : Bool
  chunk_count : Nat
deriving DecidableEq

/-- Observable result of handling one inbound frame on one connection:
the connection's new state, the deliveries made (recipient channel,
event), and the chunks handed to the classification pipeline
(`analyzer.predict`). -/
structure Effect where
  conn : Conn
  sends : List (Nat × Event)
  pipelineCalls : List (List Nat)
deriving DecidableEq

/-- `handle_start_recording` (consumers.py lines 122-139): set
`is_recording = True`, reset `chunk_count = 0`, and broadcast a
`recording_status{started}` event to every channel of the room group
(`members`), whatever the sender's role. -/
def handle_start_recording (c : Conn) (members : List Nat) : Effect :=
  { conn := { c with is_recording := true, chunk_count := 0 }
    sends := members.map
      (fun m => (m, Event.recording_status true c.baby_id 0 c.client_type))
    pipelineCalls := [] }

/-- `handle_stop_recording` (consumers.py lines 141-158): set
`is_recording = False` and broadcast `recording_status{stopped}` with
`total_chunks = chunk_count` to every channel of the room group. -/
def handle_stop_recording (c : Conn) (members : List Nat) : Effect :=
  { conn := { c with is_recording := false }
    sends := members.map
      (fun m =>
        (m, Event.recording_status false c.baby_id c.chunk_count c.client_type))
    pipelineCalls := [] }

/-- `handle_audio_chunk` (consumers.py lines 160-227): drop the chunk
silently when `is_recording` is false; otherwise run the pipeline,
increment `chunk_count` (before the error check, so the counter advances
whether or not classification succeeded), then broadcast a
`prediction_update` to the whole room on success or send a
`processing_error` to this connection alone on a tagged error. -/
def handle_audio_chunk (env : MLEnv) (c : Conn) (members : List Nat)
    (chunk : List Nat) : Effect :=
  if c.is_recording = false then { conn := c, sends := [], pipelineCalls := [] }
  else
    match predict env chunk with
    | .ok st conf probs =>
      { conn := { c with chunk_count := c.chunk_count + 1 }
        sends := members.map
          (fun m =>
            (m, Event.prediction_update c.baby_id st conf probs
              (c.chunk_count + 1) chunk.length))
        pipelineCalls := [chunk] }
    | .err msg =>
      { conn := { c with chunk_count := c.chunk_count + 1 }
        sends := [(c.channel_name, Event.processing_error msg (c.chunk_count + 1))]
        pipelineCalls := [chunk] }

/-- `send_current_status` (consumers.py lines 229-238): send the current
`{is_recording, chunk_count}` snapshot to this connection only. -/
def send_current_status (c : Conn) : Effect :=
  { conn := c
    sends := [(c.channel_name,
      Event.current_status c.is_recording c.chunk_count c.baby_id c.client_type)]
    pipelineCalls := [] }

/-- An inbound text frame after `json.loads`: `malformed` when parsing
raised (carrying the error text echoed back), `parsed` with the optional
`'type'` field otherwise. -/
inductive TextFrame
  | malformed (errMsg : String)
  | parsed (msgType : Option String)
deriving DecidableEq

/-- Text branch of `receive` (consumers.py lines 88-120): dispatch on
the `'type'` field; a parse failure is caught by the surrounding
`except` and answered with an `error` event to the sender; a frame whose
type matches none of the four commands falls through silently. -/
def receive_text (c : Conn) (members : List Nat) : TextFrame → Effect
  | .malformed msg =>
    { conn := c, sends := [(c.channel_name, Event.errorMessage msg)]
      pipelineCalls := [] }
  | .parsed mt =>
    if mt = some "start_recording" then handle_start_recording c members
    else if mt = some "stop_recording" then handle_stop_recording c members
    else if mt = some "ping" then
      { conn := c, sends := [(c.channel_name, Event.pong)], pipelineCalls := [] }
    else if mt = some "request_status" then send_current_status c
    else { conn := c, sends := [], pipelineCalls := [] }

/-- Binary branch of `receive` (consumers.py lines 108-113): only a
`recorder` connection's bytes reach `handle_audio_chunk`; any other role
is dropped with a log line and no event. -/
def receive_bytes (env : MLEnv) (c : Conn) (members : List Nat)
    (chunk : List Nat) : Effect :=
  if c.client_type = ClientType.recorder then
    handle_audio_chunk env c members chunk
  else { conn := c, sends := [], pipelineCalls := [] }

/-- One inbound WebSocket frame. -/
inductive Frame
  | text (t : TextFrame)
  | binary (chunk : List Nat)
deriving DecidableEq

/-- Process-wide state: every live consumer instance plus the channel
layer's group memberships, as `(room_group_name key = baby_id, channel)`
pairs. -/
structure World where
  conns : List Conn
  groups : List (String × Nat)
deriving DecidableEq

/-- Channels currently in the room group of `babyId`, in registration
order (the channel layer's delivery set for `group_send`). -/
def roomMembers (w : World) (babyId : String) : List Nat :=
  (w.groups.filter (fun g => g.1 = babyId)).map Prod.snd

/-- The consumer instance serving channel `id`. -/
def findConn (w : World) (id : Nat) : Option Conn :=
  w.conns.find? (fun c => c.channel_name = id)

/-- Replace the state of the consumer on channel `id`. -/
def updateConn (w : World) (id : Nat) (c' : Conn) : World :=
  { w with conns := w.conns.map (fun c => if c.channel_name = id then c' else c) }

/-- `connect` (consumers.py lines 23-65): create the consumer with
`is_recording = False` and `chunk_count = 0`, join the room group, send
`connection_status` to the new connection itself, then `group_send` a
`client_connected` event whose handler (lines 281-290) delivers a
`client_status{connected}` to every room member except the joining
channel. -/
def connect (w : World) (id : Nat) (babyId : String) (ctype : ClientType) :
    World × List (Nat × Event) :=
  let c : Conn := ⟨id, babyId, ctype, false, 0⟩
  let w1 : World := { conns := w.conns ++ [c], groups := w.groups ++ [(babyId, id)] }
  (w1,
    (id, Event.connection_status babyId ctype)
      :: ((roomMembers w1 babyId).filter (fun m => m ≠ id)).map
        (fun m => (m, Event.client_status true ctype babyId)))

/-- `disconnect` (consumers.py lines 67-86): `group_send` a
`client_disconnected` event — whose handler (lines 292-300) delivers a
`client_status{disconnected}` to every room member, with no exclusion of
the disconnecting channel, which is still registered — and only then
`group_discard` the channel from the group and drop the consumer. -/
def disconnect (w : World) (id : Nat) : World × List (Nat × Event) :=
  match findConn w id with
  | none => (w, [])
  | some c =>
    ((⟨w.conns.filter (fun x => x.channel_name ≠ id),
        w.groups.filter (fun g => ¬(g.1 = c.baby_id ∧ g.2 = id))⟩ : World),
      (roomMembers w c.baby_id).map
        (fun m => (m, Event.client_status false c.client_type c.baby_id)))

/-- The connection-level effect of one inbound frame on channel `id`. -/
def stepEffect (env : MLEnv) (w : World) (id : Nat) (f : Frame) : Option Effect :=
  match findConn w id with
  | none => none
  | some c =>
    match f with
    | .text t => some (receive_text c (roomMembers w c.baby_id) t)
    | .binary chunk => some (receive_bytes env c (roomMembers w c.baby_id) chunk)

/-- World-level step: handle one inbound frame on channel `id`, writing
back the connection's new state and returning the deliveries made. -/
def stepFrame (env : MLEnv) (w : World) (id : Nat) (f : Frame) :
    World × List (Nat × Event) :=
  match stepEffect env w id f with
  | none => (w, [])
  | some eff => (updateConn w id eff.conn, eff.sends)

/-- Fold `handle_audio_chunk` over a list of chunks arriving on one
connection (one recording span's traffic). -/
def runChunks (env : MLEnv) (c : Conn) (members : List Nat) :
    List (List Nat) → Conn
  | [] => c
  | chunk :: rest =>
    runChunks env (handle_audio_chunk env c members chunk).conn members rest

/-! ## Concrete pipeline environments used in witnesses -/

/-- A pipeline environment whose first decode tier and inference always
succeed (constant zero scores), with the abstract exponential & STFT
instantiated trivially. -/
def envOk : MLEnv :=
  { modelLoaded := true
    decode1 := fun _ => some []
    decode2 := fun _ => none
    decode3 := fun _ => none
    stft := fun _ => []
    infer := fun _ => Except.ok (fun _ => 0)
    e := fun _ => 1 }

/-- A pipeline environment whose model is not loaded: every `predict`
call returns the `Model not loaded` error result. -/
def envBad : MLEnv :=
  { modelLoaded := false
    decode1 := fun _ => none
    decode2 := fun _ => none
    decode3 := fun _ => none
    stft := fun _ => []
    infer := fun _ => Except.error "x"
    e := fun _ => 1 }

/-- The probability dictionary `predict` produces when all five softmax
inputs are equal (as with `envOk`): the uniform distribution over the
fixed label set. -/
def uniformProbs : List (String × ℚ) :=
  [("cry", 1/5), ("hungry", 1/5), ("laugh", 1/5), ("noise", 1/5), ("silence", 1/5)]

/-- Scenario connection of the spec's Start/chunk/chunk/Start test: a
freshly connected recorder on subject `"baby-1"`, channel 7; channel 8
is an attached dashboard, so the room delivery set is `[7, 8]`. -/
def scenarioC0 : Conn := ⟨7, "baby-1", ClientType.recorder, false, 0⟩

/-- Scenario state after `start_recording` followed by two successfully
classified chunks. -/
def scenarioAfterTwo : Conn :=
  (handle_audio_chunk envOk
    (handle_audio_chunk envOk
      (handle_start_recording scenarioC0 [7, 8]).conn [7, 8] [0]).conn
    [7, 8] [0]).conn

/-- Scenario state after the second `start_recording`. -/
def scenarioRestart : Conn := (handle_start_recording scenarioAfterTwo [7, 8]).conn

/-- A two-connection world on subject `"baby-1"`: channel 1 a recorder,
channel 2 a dashboard, both in the room group. -/
def w2 : World :=
  ⟨[⟨1, "baby-1", ClientType.recorder, false, 0⟩,
    ⟨2, "baby-1", ClientType.dashboard, false, 0⟩],
   [("baby-1", 1), ("baby-1", 2)]⟩

/-- A recorder connection that is currently recording, counter at 0. -/
def recC : Conn := ⟨0, "baby-1", ClientType.recorder, true, 0⟩

/-- A dashboard connection whose recording flag happens to be set. -/
def dashC : Conn := ⟨5, "baby-1", ClientType.dashboard, true, 0⟩

/-! ## Arg-max scan lemmas -/

/-- The running maximum never decreases along the scan. -/
lemma argmaxGo_le_snd : ∀ (xs : List ℚ) (i : Nat) (best : Nat × ℚ),
    best.2 ≤ (argmaxGo xs i best).2 := by
  intro xs
  induction xs with
  | nil => intro i best; simp [argmaxGo]
  | cons x xs ih =>
    intro i best
    simp only [argmaxGo]
    refine le_trans ?_ (ih (i + 1) _)
    by_cases h : best.2 < x
    · rw [if_pos h]; exact le_of_lt h
    · rw [if_neg h]

/-- Every scanned element is bounded by the final maximum. -/
lemma argmaxGo_mem_le : ∀ (xs : List ℚ) (i : Nat) (best : Nat × ℚ) (y : ℚ),
    y ∈ xs → y ≤ (argmaxGo xs i best).2 := by
  intro xs
  induction xs with
  | nil => intro i best y hy; cases hy
  | cons x xs ih =>
    intro i best y hy
    rcases List.mem_cons.mp hy with rfl | hy
    · simp only [argmaxGo]
      refine le_trans ?_ (argmaxGo_le_snd xs (i + 1) _)
      by_cases h : best.2 < y
      · rw [if_pos h]
      · rw [if_neg h]; exact le_of_not_lt h
    · simp only [argmaxGo]
      exact ih (i + 1) _ y hy

/-- The scan's result indexes into the full list `l` and reads back its
own maximum value, provided the prefix data is consistent: `xs` is the
suffix of `l` starting at `i` and `best` is a valid indexed value. -/
lemma argmaxGo_getD (l : List ℚ) : ∀ (xs : List ℚ) (i : Nat) (best : Nat × ℚ),
    l.drop i = xs → best.1 < l.length → l.getD best.1 0 = best.2 →
    (argmaxGo xs i best).1 < l.length ∧
      l.getD (argmaxGo xs i best).1 0 = (argmaxGo xs i best).2 := by
  intro xs
  induction xs with
  | nil => intro i best _ h1 h2; exact ⟨h1, h2⟩
  | cons x xs ih =>
    intro i best hdrop hlt hget
    have hi : i < l.length := by
      by_contra hge
      push_neg at hge
      rw [List.drop_eq_nil_of_le hge] at hdrop
      cases hdrop
    have hx : l.getD i 0 = x := by
      have hh := congrArg List.head? hdrop
      rw [List.head?_drop] at hh
      simp only [List.head?_cons] at hh
      rw [List.getD_eq_getElem?_getD, hh]
      rfl
    have hnext : l.drop (i + 1) = xs := by
      have ht := congrArg List.tail hdrop
      rwa [List.tail_drop] at ht
    simp only [argmaxGo]
    by_cases h : best.2 < x
    · rw [if_pos h]; exact ih (i + 1) (i, x) hnext hi hx
    · rw [if_neg h]; exact ih (i + 1) best hnext hlt hget

/-! ## Registry lemmas -/

/-- Replacing the consumer on channel `id` does not disturb the lookup
of any other channel. -/
lemma find?_map_update (l : List Conn) (id : Nat) (c' : Conn)
    (hc : c'.channel_name = id) (j : Nat) (hj : j ≠ id) :
    (l.map (fun c => if c.channel_name = id then c' else c)).find?
        (fun c => c.channel_name = j) =
      l.find? (fun c => c.channel_name = j) := by
  induction l with
  | nil => rfl
  | cons x xs ih =>
    by_cases hx : x.channel_name = id
    · have h1 : ¬(c'.channel_name = j) := by rw [hc]; exact fun h => hj h.symm
      have h2 : ¬(x.channel_name = j) := by rw [hx]; exact fun h => hj h.symm
      have h3 : id ≠ j := fun h => hj h.symm
      simp [List.find?, hx, h1, h2, h3, ih]
    · simp only [List.map_cons, List.find?, if_neg hx]
      by_cases h2 : x.channel_name = j
      · simp [h2]
      · simp [h2, ih]

lemma findConn_updateConn_of_ne (w : World) (id : Nat) (c' : Conn)
    (hc : c'.channel_name = id) (j : Nat) (hj : j ≠ id) :
    findConn (updateConn w id c') j = findConn w j :=
  find?_map_update w.conns id c' hc j hj

/-- List form: replacing the found connection makes the lookup yield the
replacement. -/
lemma find?_map_update_self (l : List Conn) (id : Nat) (c c' : Conn)
    (hc : c'.channel_name = id)
    (hw : l.find? (fun x => x.channel_name = id) = some c) :
    (l.map (fun x => if x.channel_name = id then c' else x)).find?
      (fun x => x.channel_name = id) = some c' := by
  induction l with
  | nil => cases hw
  | cons x xs ih =>
    by_cases hx : x.channel_name = id
    · simp [List.find?, hx, hc]
    · simp only [List.find?, hx, decide_False] at hw
      simp [List.find?, hx, ih hw]

/-- Looking the updated channel itself up yields the replacement,
whenever the channel was registered. -/
lemma findConn_updateConn_self (w : World) (id : Nat) (c c' : Conn)
    (hc : c'.channel_name = id) (hw : findConn w id = some c) :
    findConn (updateConn w id c') id = some c' :=
  find?_map_update_self w.conns id c c' hc hw

/-- Updating a connection's state never touches the group table. -/
lemma roomMembers_updateConn (w : World) (id : Nat) (c' : Conn) (b : String) :
    roomMembers (updateConn w id c') b = roomMembers w b := rfl

/-- A found connection's key matches the lookup key. -/
lemma findConn_channel_name (w : World) (id : Nat) (c : Conn)
    (h : findConn w id = some c) : c.channel_name = id := by
  have := List.find?_some h
  simpa using this

/-! ## Chunk-handling state lemmas -/

/-- While recording, `handle_audio_chunk` advances the counter by one,
whether classification succeeded or failed; nothing else changes. -/
lemma handle_audio_chunk_conn_rec (env : MLEnv) (c : Conn) (members : List Nat)
    (chunk : List Nat) (h : c.is_recording = true) :
    (handle_audio_chunk env c members chunk).conn =
      { c with chunk_count := c.chunk_count + 1 } := by
  unfold handle_audio_chunk
  simp only [h, Bool.true_eq_false, if_false]
  split <;> rfl

/-- While not recording, `handle_audio_chunk` leaves the state alone. -/
lemma handle_audio_chunk_conn_not (env : MLEnv) (c : Conn) (members : List Nat)
    (chunk : List Nat) (h : c.is_recording = false) :
    (handle_audio_chunk env c members chunk).conn = c := by
  unfold handle_audio_chunk
  simp [h]

/-- The chunk counter never decreases across a chunk arrival. -/
lemma handle_audio_chunk_mono (env : MLEnv) (c : Conn) (members : List Nat)
    (chunk : List Nat) :
    c.chunk_count ≤ (handle_audio_chunk env c members chunk).conn.chunk_count := by
  cases h : c.is_recording
  · rw [handle_audio_chunk_conn_not env c members chunk h]
  · rw [handle_audio_chunk_conn_rec env c members chunk h]
    exact Nat.le_succ _

/-- One recording span's chunk traffic: the counter advances by exactly
the number of chunks handed to the pipeline, and the recording flag
stays set. -/
lemma runChunks_spec (env : MLEnv) (members : List Nat) :
    ∀ (chunks : List (List Nat)) (c : Conn), c.is_recording = true →
      (runChunks env c members chunks).chunk_count = c.chunk_count + chunks.length ∧
      (runChunks env c members chunks).is_recording = true := by
  intro chunks
  induction chunks with
  | nil => intro c h; exact ⟨rfl, h⟩
  | cons ch rest ih =>
    intro c h
    simp only [runChunks]
    rw [handle_audio_chunk_conn_rec env c members ch h]
    have := ih { c with chunk_count := c.chunk_count + 1 } h
    refine ⟨?_, this.2⟩
    rw [this.1]
    simp only [List.length_cons]
    omega

/-- `predict` under `envOk`: every chunk classifies successfully to the
uniform distribution, first arg-max label `"cry"`. -/
lemma predict_envOk (chunk : List Nat) :
    predict envOk chunk = PredictResult.ok "cry" (1/5) uniformProbs := by
  norm_num [predict, preprocess_audio, envOk, softmax, probListOf, argmaxIdx,
    argmaxGo, class_names, uniformProbs]

/-- `predict` under `envBad`: the model is not loaded, so every chunk
yields the tagged `Model not loaded` error. -/
lemma predict_envBad (chunk : List Nat) :
    predict envBad chunk = PredictResult.err "Model not loaded" := by
  norm_num [predict, envBad]

/-! ## Claim theorems -/

/-- C7: normalization to the fixed length 16000 pads short waveforms
with a zero tail (preserving the original as a prefix), truncates long
waveforms to their first 16000 samples, and leaves length-16000
waveforms unchanged. -/
theorem C7_normalize_fixed_length (l : List ℚ) :
    (l.length < targetSamples →
      normalizeLength l = l ++ List.replicate (targetSamples - l.length) 0 ∧
      (normalizeLength l).length = targetSamples ∧
      (normalizeLength l).take l.length = l ∧
      (normalizeLength l).drop l.length =
        List.replicate (targetSamples - l.length) 0) ∧
    (targetSamples < l.length →
      normalizeLength l = l.take targetSamples ∧
      (normalizeLength l).length = targetSamples) ∧
    (l.length = targetSamples → normalizeLength l = l) := by
  refine ⟨?_, ?_, ?_⟩
  · intro h
    have hng : ¬ l.length > targetSamples := by omega
    have heq : normalizeLength l = l ++ List.replicate (targetSamples - l.length) 0 := by
      unfold normalizeLength
      rw [if_neg hng, if_pos h]
    refine ⟨heq, ?_, ?_, ?_⟩
    · rw [heq]
      simp only [List.length_append, List.length_replicate]
      omega
    · rw [heq, List.take_left]
    · rw [heq, List.drop_left]
  · intro h
    have heq : normalizeLength l = l.take targetSamples := by
      unfold normalizeLength
      rw [if_pos h]
    refine ⟨heq, ?_⟩
    rw [heq]
    simp only [List.length_take]
    omega
  · intro h
    unfold normalizeLength
    rw [if_neg (by omega), if_neg (by omega)]

/-- Witness for C7: a 1-sample waveform is padded to 16000 samples with
its prefix intact, a 16001-sample waveform is truncated to its first
16000 samples, and a 16000-sample waveform is untouched. -/
theorem C7_witness :
    ((normalizeLength [(1 : ℚ)]).length = targetSamples ∧
      (normalizeLength [(1 : ℚ)]).take 1 = [(1 : ℚ)]) ∧
    normalizeLength (List.replicate 16001 (0 : ℚ)) =
      (List.replicate 16001 (0 : ℚ)).take targetSamples ∧
    normalizeLength (List.replicate 16000 (0 : ℚ)) =
      List.replicate 16000 (0 : ℚ) := by
  refine ⟨⟨?_, ?_⟩, ?_, ?_⟩
  · exact ((C7_normalize_fixed_length [(1 : ℚ)]).1 (by norm_num [targetSamples])).2.1
  · have h := ((C7_normalize_fixed_length [(1 : ℚ)]).1 (by norm_num [targetSamples])).2.2.1
    simpa using h
  · exact ((C7_normalize_fixed_length _).2.1
      (by simp only [List.length_replicate]; norm_num [targetSamples])).1
  · exact (C7_normalize_fixed_length _).2.2
      (by simp only [List.length_replicate]; norm_num [targetSamples])

/-- C1 counterexample: with the model unavailable, a chunk arriving on a
recording recorder connection is classified with a tagged error, the
sender receives a `processing_error` — and the chunk counter still
advances from 0 to 1.  Failed classification does advance the counter,
contrary to the claim. -/
theorem C1_counterexample :
    (predict envBad [0]).isErr = true ∧
    (handle_audio_chunk envBad recC [0] [0]).sends =
      [(0, Event.processing_error "Model not loaded" 1)] ∧
    (handle_audio_chunk envBad recC [0] [0]).conn.chunk_count = 1 := by
  refine ⟨by rw [predict_envBad]; rfl, ?_, ?_⟩ <;>
    simp [handle_audio_chunk, predict_envBad, recC]

/-- C1 amended: within one recording span the chunk counter is
monotonically non-decreasing and equals exactly the number of chunks
handed to the classification pipeline — every processed chunk advances
it, whether its classification succeeded or returned an error. -/
theorem C1_counter_span (env : MLEnv) (c : Conn) (members : List Nat)
    (chunks : List (List Nat)) (chunk : List Nat)
    (hrec : c.is_recording = true) :
    (runChunks env c members chunks).chunk_count = c.chunk_count + chunks.length ∧
    (runChunks env c members chunks).is_recording = true ∧
    c.chunk_count ≤ (handle_audio_chunk env c members chunk).conn.chunk_count := by
  refine ⟨(runChunks_spec env members chunks c hrec).1,
    (runChunks_spec env members chunks c hrec).2,
    handle_audio_chunk_mono env c members chunk⟩

/-- Witness for C1 (amended): two chunks processed on a recording
connection with a broken model still bring the counter from 0 to 2. -/
theorem C1_witness :
    (runChunks envBad recC [0] [[0], [0]]).chunk_count =
      recC.chunk_count + ([[0], [0]] : List (List Nat)).length ∧
    (runChunks envBad recC [0] [[0], [0]]).is_recording = true ∧
    recC.chunk_count ≤ (handle_audio_chunk envBad recC [0] [0]).conn.chunk_count :=
  C1_counter_span envBad recC [0] [[0], [0]] [0] rfl

/-- C2: whatever the prior state and the sender's role,
`start_recording` sets the recording flag, resets the chunk counter to
0, and broadcasts `recording_status{started}` to every connection in
the subject's room; consequently, after Start, two successful chunks,
Start again, the next successful chunk's `prediction_update` reports
`chunk_number = 1`. -/
theorem C2_start_recording_resets :
    (∀ (c : Conn) (members : List Nat),
      handle_start_recording c members =
        { conn := { c with is_recording := true, chunk_count := 0 }
          sends := members.map
            (fun m => (m, Event.recording_status true c.baby_id 0 c.client_type))
          pipelineCalls := [] }) ∧
    (∀ (env : MLEnv) (w : World) (id : Nat) (c : Conn), findConn w id = some c →
      (stepFrame env w id (.text (.parsed (some "start_recording")))).2 =
        (roomMembers w c.baby_id).map
          (fun m => (m, Event.recording_status true c.baby_id 0 c.client_type)) ∧
      findConn (stepFrame env w id (.text (.parsed (some "start_recording")))).1 id =
        some { c with is_recording := true, chunk_count := 0 }) ∧
    scenarioAfterTwo.chunk_count = 2 ∧
    (handle_audio_chunk envOk scenarioRestart [7, 8] [0]).sends =
      [(7, Event.prediction_update "baby-1" "cry" (1/5) uniformProbs 1 1),
       (8, Event.prediction_update "baby-1" "cry" (1/5) uniformProbs 1 1)] := by
  refine ⟨fun c members => rfl, ?_, ?_, ?_⟩
  · intro env w id c hw
    have hch := findConn_channel_name w id c hw
    simp only [stepFrame, stepEffect, hw, receive_text, reduceIte]
    constructor
    · rfl
    · exact findConn_updateConn_self w id c _ hch hw
  · simp [scenarioAfterTwo, scenarioC0, handle_start_recording,
      handle_audio_chunk, predict_envOk]
  · simp [scenarioRestart, scenarioAfterTwo, scenarioC0,
      handle_start_recording, handle_audio_chunk, predict_envOk]

/-- Witness for C2: in the two-connection world `w2`, a
`start_recording` frame on the recorder channel broadcasts the started
event to both room members and resets that channel's state. -/
theorem C2_witness :
    (stepFrame envOk w2 1 (.text (.parsed (some "start_recording")))).2 =
      (roomMembers w2 "baby-1").map
        (fun m => (m, Event.recording_status true "baby-1" 0 ClientType.recorder)) ∧
    findConn (stepFrame envOk w2 1 (.text (.parsed (some "start_recording")))).1 1 =
      some ⟨1, "baby-1", ClientType.recorder, true, 0⟩ :=
  C2_start_recording_resets.2.1 envOk w2 1
    ⟨1, "baby-1", ClientType.recorder, false, 0⟩ rfl

/-- C3: a binary frame reaches the classification pipeline exactly when
the sending connection is a recorder whose recording flag is set; in
every other case the chunk is silently discarded — state unchanged, no
pipeline call, no event to anyone. -/
theorem C3_binary_gate (env : MLEnv) (c : Conn) (members : List Nat)
    (chunk : List Nat) :
    ((receive_bytes env c members chunk).pipelineCalls = [chunk] ↔
      c.client_type = ClientType.recorder ∧ c.is_recording = true) ∧
    (¬(c.client_type = ClientType.recorder ∧ c.is_recording = true) →
      receive_bytes env c members chunk =
        { conn := c, sends := [], pipelineCalls := [] }) := by
  constructor
  · constructor
    · intro h
      by_cases hr : c.client_type = ClientType.recorder
      · cases hb : c.is_recording
        · exfalso
          simp [receive_bytes, handle_audio_chunk, hr, hb] at h
        · exact ⟨hr, rfl⟩
      · exfalso
        simp [receive_bytes, hr] at h
    · rintro ⟨hr, hb⟩
      simp only [receive_bytes, if_pos hr]
      unfold handle_audio_chunk
      simp only [hb, Bool.true_eq_false, if_false]
      split <;> rfl
  · intro hno
    by_cases hr : c.client_type = ClientType.recorder
    · have hb : c.is_recording = false := by
        cases hb : c.is_recording
        · rfl
        · exact absurd ⟨hr, hb⟩ hno
      simp [receive_bytes, handle_audio_chunk, hr, hb]
    · simp [receive_bytes, hr]

/-- Witness for C3: the same bytes on a dashboard connection (even one
whose recording flag is set) trigger no pipeline call, no state change
and no event. -/
theorem C3_witness :
    ((receive_bytes envOk dashC [5] [0]).pipelineCalls = [[0]] ↔
      dashC.client_type = ClientType.recorder ∧ dashC.is_recording = true) ∧
    receive_bytes envOk dashC [5] [0] =
      { conn := dashC, sends := [], pipelineCalls := [] } :=
  ⟨(C3_binary_gate envOk dashC [5] [0]).1,
   (C3_binary_gate envOk dashC [5] [0]).2 (by simp [dashC])⟩

/-- C4: recording flag and chunk counter are per-connection state: a
`start_recording` frame handled on channel `B` leaves every other
channel's state untouched, and the handling of a subsequent binary
frame on channel `A` (state change, deliveries, pipeline dispatch) is
exactly what it would have been without `B`'s command. -/
theorem C4_per_connection_state (env : MLEnv) (w : World) (A B : Nat)
    (chunk : List Nat) (hAB : A ≠ B) :
    (∀ j, j ≠ B →
      findConn (stepFrame env w B (.text (.parsed (some "start_recording")))).1 j =
        findConn w j) ∧
    stepEffect env (stepFrame env w B (.text (.parsed (some "start_recording")))).1 A
        (.binary chunk) =
      stepEffect env w A (.binary chunk) := by
  cases hw : findConn w B with
  | none =>
    have hstep : stepFrame env w B (.text (.parsed (some "start_recording"))) = (w, []) := by
      simp [stepFrame, stepEffect, hw]
    rw [hstep]
    exact ⟨fun j _ => rfl, rfl⟩
  | some b =>
    have hch : b.channel_name = B := findConn_channel_name w B b hw
    have hch2 : ({ b with is_recording := true, chunk_count := 0 } : Conn).channel_name = B := hch
    have hstep : (stepFrame env w B (.text (.parsed (some "start_recording")))).1 =
        updateConn w B { b with is_recording := true, chunk_count := 0 } := by
      simp [stepFrame, stepEffect, hw, receive_text, handle_start_recording]
    rw [hstep]
    refine ⟨fun j hj => findConn_updateConn_of_ne w B _ hch2 j hj, ?_⟩
    unfold stepEffect
    rw [findConn_updateConn_of_ne w B _ hch2 A hAB]
    rfl

/-- Witness for C4: in `w2`, a `start_recording` on the dashboard
channel 2 leaves channel 1's state and chunk handling untouched. -/
theorem C4_witness :
    findConn (stepFrame envOk w2 2 (.text (.parsed (some "start_recording")))).1 1 =
      findConn w2 1 ∧
    stepEffect envOk (stepFrame envOk w2 2 (.text (.parsed (some "start_recording")))).1 1
        (.binary [0]) =
      stepEffect envOk w2 1 (.binary [0]) :=
  ⟨(C4_per_connection_state envOk w2 1 2 [0] (by decide)).1 1 (by decide),
   (C4_per_connection_state envOk w2 1 2 [0] (by decide)).2⟩

/-- C10: `ping` answers the sender alone with `pong`, `request_status`
answers the sender alone with the `{is_recording, chunk_count}`
snapshot; neither touches any connection's state nor the group table. -/
theorem C10_ping_request_status (env : MLEnv) (w : World) (id : Nat) (c : Conn)
    (hw : findConn w id = some c) :
    (stepFrame env w id (.text (.parsed (some "ping")))).2 = [(id, Event.pong)] ∧
    (stepFrame env w id (.text (.parsed (some "request_status")))).2 =
      [(id, Event.current_status c.is_recording c.chunk_count c.baby_id c.client_type)] ∧
    (∀ j, findConn (stepFrame env w id (.text (.parsed (some "ping")))).1 j =
      findConn w j) ∧
    (∀ j, findConn (stepFrame env w id (.text (.parsed (some "request_status")))).1 j =
      findConn w j) ∧
    (stepFrame env w id (.text (.parsed (some "ping")))).1.groups = w.groups ∧
    (stepFrame env w id (.text (.parsed (some "request_status")))).1.groups = w.groups := by
  have hch := findConn_channel_name w id c hw
  have hping : stepFrame env w id (.text (.parsed (some "ping"))) =
      (updateConn w id c, [(c.channel_name, Event.pong)]) := by
    simp [stepFrame, stepEffect, hw, receive_text]
  have hrs : stepFrame env w id (.text (.parsed (some "request_status"))) =
      (updateConn w id c,
        [(c.channel_name,
          Event.current_status c.is_recording c.chunk_count c.baby_id c.client_type)]) := by
    simp [stepFrame, stepEffect, hw, receive_text, send_current_status]
  have hfind : ∀ j, findConn (updateConn w id c) j = findConn w j := by
    intro j
    by_cases hj : j = id
    · subst hj
      rw [findConn_updateConn_self w j c c hch hw, hw]
    · exact findConn_updateConn_of_ne w id c hch j hj
  rw [hping, hrs]
  exact ⟨by rw [hch], by rw [hch], hfind, hfind, rfl, rfl⟩

/-- Witness for C10: `ping` and `request_status` on the recorder channel
of `w2` answer channel 1 only and leave the world unchanged. -/
theorem C10_witness :
    (stepFrame envOk w2 1 (.text (.parsed (some "ping")))).2 = [(1, Event.pong)] ∧
    (stepFrame envOk w2 1 (.text (.parsed (some "request_status")))).2 =
      [(1, Event.current_status false 0 "baby-1" ClientType.recorder)] ∧
    findConn (stepFrame envOk w2 1 (.text (.parsed (some "ping")))).1 2 =
      findConn w2 2 ∧
    (stepFrame envOk w2 1 (.text (.parsed (some "ping")))).1.groups = w2.groups := by
  obtain ⟨h1, h2, h3, h4, h5, h6⟩ :=
    C10_ping_request_status envOk w2 1 ⟨1, "baby-1", ClientType.recorder, false, 0⟩ rfl
  exact ⟨h1, h2, h3 2, h5⟩

/-- C8 counterexample: a well-formed text frame whose `type` is not one
of the four known commands gets no reply at all — not the claimed
`CommandError`/`error` event (state is indeed unchanged). -/
theorem C8_counterexample :
    (receive_text dashC [5] (.parsed (some "frobnicate"))).sends = [] ∧
    (receive_text dashC [5] (.parsed (some "frobnicate"))).conn = dashC := by
  constructor <;> rfl

/-- C8 amended: a malformed (unparseable) text frame is answered with an
`error` event to the sender only, state untouched; a parseable frame
whose `type` matches none of the four commands is silently ignored —
no event to anyone, state untouched. -/
theorem C8_malformed_and_unknown (c : Conn) (members : List Nat) (msg : String)
    (mt : Option String)
    (h1 : mt ≠ some "start_recording") (h2 : mt ≠ some "stop_recording")
    (h3 : mt ≠ some "ping") (h4 : mt ≠ some "request_status") :
    receive_text c members (.malformed msg) =
      { conn := c, sends := [(c.channel_name, Event.errorMessage msg)]
        pipelineCalls := [] } ∧
    receive_text c members (.parsed mt) =
      { conn := c, sends := [], pipelineCalls := [] } := by
  refine ⟨rfl, ?_⟩
  simp only [receive_text, if_neg h1, if_neg h2, if_neg h3, if_neg h4]

/-- Witness for C8 (amended): a parse failure is answered with the error
event; a frame with no `type` field is ignored. -/
theorem C8_witness :
    receive_text dashC [] (.malformed "bad") =
      { conn := dashC, sends := [(5, Event.errorMessage "bad")]
        pipelineCalls := [] } ∧
    receive_text dashC [] (.parsed none) =
      { conn := dashC, sends := [], pipelineCalls := [] } :=
  C8_malformed_and_unknown dashC [] "bad" none
    (by simp) (by simp) (by simp) (by simp)

/-- C9 counterexample: on disconnect of channel 1 from `w2`, the
`client_status{disconnected}` notice is delivered to the whole room
*including channel 1 itself* — the handler has no self-exclusion and
the group discard only happens afterwards, so the notice is not
restricted to the remaining peers. -/
theorem C9_counterexample :
    (1, Event.client_status false ClientType.recorder "baby-1") ∈ (disconnect w2 1).2 := by
  simp [disconnect, w2, findConn, roomMembers, List.find?]

/-- C9 amended: on connect, a `connection_status` ack goes to the new
connection itself and a `client_status{connected}` notice to every
other room member (never echoed to the joiner); on disconnect, the
`client_status{disconnected}` notice goes to every connection still
registered in the room — including the detaching one — after which the
channel is removed from the group. -/
theorem C9_join_leave_notices :
    (∀ (w : World) (id : Nat) (babyId : String) (ctype : ClientType),
      (connect w id babyId ctype).2 =
        (id, Event.connection_status babyId ctype)
          :: ((roomMembers (connect w id babyId ctype).1 babyId).filter
              (fun m => m ≠ id)).map
            (fun m => (m, Event.client_status true ctype babyId))) ∧
    (∀ (w : World) (id : Nat) (c : Conn), findConn w id = some c →
      (disconnect w id).2 =
        (roomMembers w c.baby_id).map
          (fun m => (m, Event.client_status false c.client_type c.baby_id)) ∧
      roomMembers (disconnect w id).1 c.baby_id =
        (roomMembers w c.baby_id).filter (fun m => m ≠ id)) := by
  refine ⟨fun w id babyId ctype => rfl, ?_⟩
  intro w id c hw
  refine ⟨by simp [disconnect, hw], ?_⟩
  simp only [disconnect, hw]
  unfold roomMembers
  rw [List.filter_map]
  simp only [List.filter_filter]
  congr 1
  apply List.filter_congr
  intro g _
  by_cases hb : g.1 = c.baby_id
  · by_cases hid : g.2 = id <;> simp [hb, hid, Function.comp]
  · simp [hb]

/-- Witness for C9 (amended): disconnecting channel 1 from `w2` notifies
every registered member of the room and then drops channel 1 from the
group. -/
theorem C9_witness :
    (disconnect w2 1).2 =
      (roomMembers w2 "baby-1").map
        (fun m => (m, Event.client_status false ClientType.recorder "baby-1")) ∧
    roomMembers (disconnect w2 1).1 "baby-1" =
      (roomMembers w2 "baby-1").filter (fun m => m ≠ 1) :=
  C9_join_leave_notices.2 w2 1 ⟨1, "baby-1", ClientType.recorder, false, 0⟩ rfl

/-- C5: `predict` returns a tagged error exactly when the model is not
loaded, all three decode tiers fail, or the inference call raises; and
each processed chunk produces exactly one event — a `prediction_update`
broadcast to the whole room on success, or a `processing_error` to the
sending connection alone on failure, never both. -/
theorem C5_error_policy :
    (∀ (env : MLEnv) (chunk : List Nat),
      ((predict env chunk).isErr = true ↔
        env.modelLoaded = false ∨ preprocess_audio env chunk = none ∨
        ∃ s m, preprocess_audio env chunk = some s ∧
          env.infer s = Except.error m)) ∧
    (∀ (env : MLEnv) (chunk : List Nat),
      (preprocess_audio env chunk = none ↔
        env.decode1 chunk = none ∧ env.decode2 chunk = none ∧
          env.decode3 chunk = none)) ∧
    (∀ (env : MLEnv) (c : Conn) (members : List Nat) (chunk : List Nat),
      c.is_recording = true →
      (∀ st conf probs, predict env chunk = .ok st conf probs →
        (handle_audio_chunk env c members chunk).sends =
          members.map (fun m => (m, Event.prediction_update c.baby_id st conf
            probs (c.chunk_count + 1) chunk.length))) ∧
      (∀ msg, predict env chunk = .err msg →
        (handle_audio_chunk env c members chunk).sends =
          [(c.channel_name, Event.processing_error msg (c.chunk_count + 1))])) := by
  refine ⟨?_, ?_, ?_⟩
  · intro env chunk
    constructor
    · intro h
      unfold predict at h
      by_cases hm : env.modelLoaded = false
      · exact Or.inl hm
      · rw [if_neg hm] at h
        cases hp : preprocess_audio env chunk with
        | none => exact Or.inr (Or.inl rfl)
        | some s =>
          cases hi : env.infer s with
          | error m => exact Or.inr (Or.inr ⟨s, m, rfl, hi⟩)
          | ok scores => simp [hp, hi, PredictResult.isErr] at h
    · intro h
      rcases h with hm | hp | ⟨s, m, hp, hi⟩
      · unfold predict; rw [if_pos hm]; rfl
      · by_cases hm : env.modelLoaded = false
        · unfold predict; rw [if_pos hm]; rfl
        · unfold predict; rw [if_neg hm, hp]; rfl
      · by_cases hm : env.modelLoaded = false
        · unfold predict; rw [if_pos hm]; rfl
        · unfold predict
          rw [if_neg hm, hp]
          simp [hi, PredictResult.isErr]
  · intro env chunk
    unfold preprocess_audio
    cases h1 : env.decode1 chunk with
    | some a => simp [h1]
    | none =>
      cases h2 : env.decode2 chunk with
      | some a => simp [h2]
      | none =>
        cases h3 : env.decode3 chunk with
        | some a => simp [h3]
        | none => simp [h3]
  · intro env c members chunk hrec
    constructor
    · intro st conf probs hok
      unfold handle_audio_chunk
      rw [hok]
      simp [hrec]
    · intro msg herr
      unfold handle_audio_chunk
      rw [herr]
      simp [hrec]

/-- Witness for C5: under `envBad` the error taxonomy holds and a chunk
on a recording connection yields exactly the sender-only
`processing_error`; under `envOk` it yields exactly the room-wide
`prediction_update`. -/
theorem C5_witness :
    ((predict envBad [0]).isErr = true ↔
      envBad.modelLoaded = false ∨ preprocess_audio envBad [0] = none ∨
      ∃ s m, preprocess_audio envBad [0] = some s ∧
        envBad.infer s = Except.error m) ∧
    (handle_audio_chunk envBad recC [0] [0]).sends =
      [(recC.channel_name, Event.processing_error "Model not loaded"
        (recC.chunk_count + 1))] ∧
    (handle_audio_chunk envOk recC [7, 8] [0]).sends =
      [7, 8].map (fun m => (m, Event.prediction_update recC.baby_id "cry" (1/5)
        uniformProbs (recC.chunk_count + 1) ([0] : List Nat).length)) :=
  ⟨C5_error_policy.1 envBad [0],
   ((C5_error_policy.2.2 envBad recC [0] [0] rfl).2 "Model not loaded"
     (predict_envBad [0])),
   ((C5_error_policy.2.2 envOk recC [7, 8] [0] rfl).1 "cry" (1/5) uniformProbs
     (predict_envOk [0]))⟩

/-- C6: whenever the abstract softmax exponential is positive, every
successful `predict` result has a probabilities mapping keyed by
exactly the fixed label set, in order; its values sum to 1 (so within
the 1e-4 tolerance); its `(state, confidence)` pair occurs in the
mapping; and every probability in the mapping is bounded by the
confidence — the predicted label is an arg-max key and the confidence
is the probability there. -/
theorem C6_success_distribution (env : MLEnv) (chunk : List Nat) (st : String)
    (conf : ℚ) (probs : List (String × ℚ))
    (hpos : ∀ x, 0 < env.e x)
    (hok : predict env chunk = .ok st conf probs) :
    probs.map Prod.fst = class_names ∧
    |(probs.map Prod.snd).sum - 1| ≤ 1 / 10000 ∧
    (st, conf) ∈ probs ∧
    (∀ p ∈ probs, p.2 ≤ conf) := by
  unfold predict at hok
  by_cases hm : env.modelLoaded = false
  · rw [if_pos hm] at hok; cases hok
  rw [if_neg hm] at hok
  cases hp : preprocess_audio env chunk with
  | none => rw [hp] at hok; cases hok
  | some s =>
  rw [hp] at hok
  cases hi : env.infer s with
  | error m => simp only [hi, reduceCtorEq] at hok
  | ok scores =>
  simp only [hi, PredictResult.ok.injEq] at hok
  obtain ⟨h1, h2, h3⟩ := hok
  subst h1
  subst h2
  subst h3
  set pl : List ℚ := probListOf env.e scores with hpl
  set idx : Nat := argmaxIdx pl with hidx
  have hplen : pl.length = 5 := rfl
  have hclen : class_names.length = 5 := rfl
  have hS : 0 < env.e (scores 0) + env.e (scores 1) + env.e (scores 2) +
      env.e (scores 3) + env.e (scores 4) := by
    have a0 := hpos (scores 0)
    have a1 := hpos (scores 1)
    have a2 := hpos (scores 2)
    have a3 := hpos (scores 3)
    have a4 := hpos (scores 4)
    linarith
  have hsum : pl.sum = 1 := by
    simp only [hpl, probListOf, softmax, List.sum_cons, List.sum_nil, add_zero]
    rw [div_add_div_same, div_add_div_same, div_add_div_same, div_add_div_same,
      div_eq_one_iff_eq (ne_of_gt hS)]
    ring
  -- the arg-max scan over pl, with its defining data
  have hgo := argmaxGo_getD pl
    [softmax env.e scores 1, softmax env.e scores 2,
      softmax env.e scores 3, softmax env.e scores 4]
    1 (0, softmax env.e scores 0) rfl (by rw [hplen]; omega) rfl
  obtain ⟨hlt, hval⟩ := hgo
  have hidx5 : idx < 5 := by rw [← hplen]; exact hlt
  have hb1 : idx < class_names.length := by rw [hclen]; exact hidx5
  have hb2 : idx < pl.length := by rw [hplen]; exact hidx5
  have hst : class_names.getD idx "unknown" = class_names[idx] := by
    rw [List.getD_eq_getElem?_getD, List.getElem?_eq_getElem hb1]
    rfl
  have hcf : pl.getD idx 0 = pl[idx] := by
    rw [List.getD_eq_getElem?_getD, List.getElem?_eq_getElem hb2]
    rfl
  refine ⟨List.map_fst_zip class_names pl (by rw [hplen, hclen]), ?_, ?_, ?_⟩
  · rw [List.map_snd_zip class_names pl (by rw [hplen, hclen]), hsum]
    norm_num
  · rw [hst, hcf]
    refine List.getElem?_mem (n := idx) ?_
    rw [List.getElem?_zip_eq_some]
    exact ⟨List.getElem?_eq_getElem hb1, List.getElem?_eq_getElem hb2⟩
  · rintro ⟨a, b⟩ hab
    have hbpl : b ∈ pl := (List.of_mem_zip hab).2
    have hconf : pl.getD idx 0 =
        (argmaxGo [softmax env.e scores 1, softmax env.e scores 2,
          softmax env.e scores 3, softmax env.e scores 4] 1
          (0, softmax env.e scores 0)).2 := hval
    rw [hconf]
    rcases List.mem_cons.mp hbpl with hb0 | hbrest
    · rw [hb0]
      exact argmaxGo_le_snd _ 1 (0, softmax env.e scores 0)
    · exact argmaxGo_mem_le _ 1 (0, softmax env.e scores 0) b hbrest

/-- Witness for C6: under `envOk` (positive exponential, equal scores)
the successful result carries the uniform distribution over the fixed
labels, summing to 1, with `("cry", 1/5)` a member and `1/5` maximal. -/
theorem C6_witness :
    uniformProbs.map Prod.fst = class_names ∧
    |(uniformProbs.map Prod.snd).sum - 1| ≤ 1 / 10000 ∧
    ("cry", (1/5 : ℚ)) ∈ uniformProbs ∧
    (("silence", (1/5 : ℚ)).2 ≤ (1/5 : ℚ)) := by
  obtain ⟨h1, h2, h3, h4⟩ := C6_success_distribution envOk [0] "cry" (1/5)
    uniformProbs (fun x => by norm_num [envOk]) (predict_envOk [0])
  exact ⟨h1, h2, h3, h4 ("silence", (1/5 : ℚ)) (by simp [uniformProbs])⟩

end BabyMonitor
